import Mathlib

/-!
Verification of the StatefulEmitter state container (src/index.js).

The source is a JavaScript class holding, per instance, a private state
snapshot inside a module-level table `PrivateStates` keyed by a
monotonically increasing integer id.  We embed the relevant JavaScript
semantics shallowly:

* `JSValue` models the values that can appear in a state field or be
  stored as a whole snapshot: `undefined`, `null`, booleans, numbers,
  strings and object references.  Strict equality `===`/`!==` is decidable
  equality on `JSValue` (object references compare by reference).
* `Obj` is the contents of one object: an association list from field name
  to value; `Heap` maps references to object contents and carries the next
  fresh reference, so that reference identity, `Object.assign` copies and
  in-place mutation are all observable.
* `PrivateStates` is the module-level table: the id counter and the
  id-to-snapshot map.
* `setState` returns the updated table and heap, the list of emitted
  events in emission order, and `some` error when the JavaScript code
  would throw; the events emitted before the throw are kept, since they
  were already delivered.
-/

set_option autoImplicit false

namespace StatefulEmitterModel

/-- A JavaScript value as far as this library observes it: primitives plus
object references (objects themselves live in a `Heap`). -/
inductive JSValue where
  | undefined
  | null
  | boolV (b : Bool)
  | num (n : Int)
  | str (s : String)
  | ref (r : Nat)
deriving DecidableEq, Repr

/-- The own enumerable properties of one object, in insertion order. -/
abbrev Obj := List (String × JSValue)

/-- JavaScript truthiness, as used by `s ? ... : ...` and `oldState || {}`. -/
def truthy : JSValue → Bool
  | .undefined => false
  | .null => false
  | .boolV b => b
  | .num n => n ≠ 0
  | .str s => s ≠ ""
  | .ref _ => true

/-- Property read on an object's contents: the first binding of the key, or
`undefined` when the key is absent. -/
def getField : Obj → String → JSValue
  | [], _ => .undefined
  | p :: rest, k => if p.1 = k then p.2 else getField rest k

/-- Property write on an object's contents: replace the binding of the key
when present, append it otherwise. -/
def setField : Obj → String → JSValue → Obj
  | [], k, v => [(k, v)]
  | p :: rest, k, v => if p.1 = k then (k, v) :: rest else p :: setField rest k v

/-- Assign every field of `src`, in order, onto `dst` —
the per-source step of `Object.assign(dst, src)`. -/
def assignFields : Obj → Obj → Obj
  | dst, [] => dst
  | dst, p :: rest => assignFields (setField dst p.1 p.2) rest

/-- The field names of an object's contents, in order. -/
def keys (o : Obj) : List String := o.map Prod.fst

/-- The heap: object contents per reference, plus the next fresh reference. -/
structure Heap where
  objs : List (Nat × Obj)
  next : Nat
deriving Repr

/-- Reference lookup in the heap's backing list (newest binding wins). -/
def lookupRef : List (Nat × Obj) → Nat → Option Obj
  | [], _ => none
  | p :: rest, r => if p.1 = r then some p.2 else lookupRef rest r

/-- Contents of the object at reference `r`, when allocated. -/
def Heap.get (h : Heap) (r : Nat) : Option Obj := lookupRef h.objs r

/-- Contents of the object at reference `r`, defaulting to empty. -/
def Heap.getObj (h : Heap) (r : Nat) : Obj := (h.get r).getD []

/-- Allocate a fresh object with the given contents; returns the new heap and
the new reference. -/
def Heap.alloc (h : Heap) (o : Obj) : Heap × Nat :=
  (⟨(h.next, o) :: h.objs, h.next + 1⟩, h.next)

/-- In-place mutation `obj[k] = v` of the object at reference `r`. -/
def mutateField (h : Heap) (r : Nat) (k : String) (v : JSValue) : Heap :=
  ⟨(r, setField (h.getObj r) k v) :: h.objs, h.next⟩

/-- Heap well-formedness: every allocated reference is below `next`. -/
def Heap.WF (h : Heap) : Prop := ∀ p ∈ h.objs, p.1 < h.next

instance (h : Heap) : Decidable h.WF :=
  inferInstanceAs (Decidable (∀ p ∈ h.objs, p.1 < h.next))

/-- The own enumerable properties of a value, as read by `Object.assign` and
`Object.keys`: the contents for an object reference, nothing for primitives
(state snapshots are mappings or absence in this library's data model). -/
def ownProps (h : Heap) : JSValue → Obj
  | .ref r => h.getObj r
  | _ => []

/-- The result of `Object.keys(value)`. -/
def jsKeys (h : Heap) (v : JSValue) : List String := keys (ownProps h v)

/-- The errors the embedded code can raise. -/
inductive JSError where
  | typeError
deriving DecidableEq, Repr

/-- Property access `v[k]`: throws a `TypeError` on `undefined`/`null`,
reads the object's field through the heap on a reference, and yields
`undefined` on other primitives (whose snapshots have no fields in this
library's data model). -/
def jsIndex (h : Heap) (v : JSValue) (k : String) : Except JSError JSValue :=
  match v with
  | .undefined => .error .typeError
  | .null => .error .typeError
  | .ref r => .ok (getField (h.getObj r) k)
  | _ => .ok .undefined

/-- The module level table `PrivateStates`: the id counter and the map from
instance id to that instance's stored snapshot. -/
structure PrivateStates where
  id : Nat
  states : List (Nat × JSValue)
deriving Repr

/-- Lookup in the id-to-snapshot map (newest binding wins); a missing entry
reads as `undefined`, as in JavaScript. -/
def statesGet : List (Nat × JSValue) → Nat → JSValue
  | [], _ => .undefined
  | p :: rest, i => if p.1 = i then p.2 else statesGet rest i

/-- `PrivateStates.states[id]`. -/
def psGet (ps : PrivateStates) (i : Nat) : JSValue := statesGet ps.states i

/-- The constructor: `this._id = ++PrivateStates.id;
PrivateStates.states[this._id] = this.initialState;`.  The value of the
`initialState` hook is passed in; returns the updated table and the new
instance's id. -/
def construct (ps : PrivateStates) (initialState : JSValue) : PrivateStates × Nat :=
  (⟨ps.id + 1, (ps.id + 1, initialState) :: ps.states⟩, ps.id + 1)

/-- The `state` getter: `const s = PrivateStates.states[this._id];
return s ? Object.assign(\x7b\x7d, s) : s;` — a truthy snapshot is returned as a
freshly allocated shallow copy, a falsy one as-is. -/
def stateRead (ps : PrivateStates) (h : Heap) (i : Nat) : Heap × JSValue :=
  let s := psGet ps i
  if truthy s then
    ((h.alloc (assignFields [] (ownProps h s))).1, JSValue.ref h.next)
  else (h, s)

/-- Contents of the object a state read hands back, when it hands back an
object (the observation the specification's read contract is about). -/
def readObj (ps : PrivateStates) (h : Heap) (i : Nat) : Option Obj :=
  match stateRead ps h i with
  | (h1, JSValue.ref r) => h1.get r
  | _ => none

/-- The events `setState` emits on its instance, in emission order, with the
instance they are emitted on. -/
inductive Event where
  | statechange (i : Nat) (newS oldS : JSValue)
  | change (i : Nat) (n o : JSValue)
deriving DecidableEq, Repr

/-- The instance an event is emitted on. -/
def Event.inst : Event → Nat
  | .statechange i _ _ => i
  | .change i _ _ => i

/-- Whether an event is a `statechange` event. -/
def isStatechange : Event → Bool
  | .statechange _ _ _ => true
  | .change _ _ _ => false

/-- Whether an event is a `change` event. -/
def isChange : Event → Bool
  | .statechange _ _ _ => false
  | .change _ _ _ => true

/-- Modelled from the spec: the event-subscription facility is the standard
observer collaborator (Node's `EventEmitter`, required from the `events`
module, not part of this repository's sources).  Emitting an event invokes
every listener currently registered for its channel exactly once, in
registration order, with the payload; we record the delivery as the ordered
list of (listener, event) pairs. -/
def deliver {L : Type} (listeners : List L) (e : Event) : List (L × Event) :=
  listeners.map (fun l => (l, e))

/-- `Object.assign(\x7b\x7d, oldState || \x7b\x7d, value)` — the merged snapshot
`setState` builds: the old snapshot's fields (none when the old snapshot is
falsy), then the update's fields assigned over them. -/
def mergedState (ps : PrivateStates) (h : Heap) (i : Nat) (value : JSValue) : Obj :=
  let oldState := psGet ps i
  assignFields (assignFields [] (if truthy oldState then ownProps h oldState else []))
    (ownProps h value)

/-- The property names `for (const key in Object.keys(value))` actually walks:
the enumerable keys of the *array* of key names, i.e. the index strings
"0", "1", ... — not the key names themselves. -/
def indexKeys (n : Nat) : List String := (List.range n).map (fun i => toString i)

/-- The field-diff loop of `setState`: for each iterated property name `k`,
read `oldState[k]` (which throws on an absent old snapshot) and
`newState[k]`, and emit a `change` event when they differ under strict
inequality.  A throw aborts the loop; the events already emitted stay
delivered. -/
def diffLoop (h : Heap) (i : Nat) (oldState : JSValue) (rNew : Nat) :
    List String → List Event × Option JSError
  | [] => ([], none)
  | k :: ks =>
    match jsIndex h oldState k with
    | .error e => ([], some e)
    | .ok o =>
      match jsIndex h (.ref rNew) k with
      | .error e => ([], some e)
      | .ok n =>
        let rest := diffLoop h i oldState rNew ks
        if n ≠ o then (Event.change i n o :: rest.1, rest.2) else rest

/-- Everything one `setState` call produces: the updated table and heap, the
events emitted on the instance in emission order, and the error the call
throws, if any (thrown after the store and the emissions that precede it). -/
structure SetStateOutcome where
  ps : PrivateStates
  heap : Heap
  events : List Event
  error : Option JSError
deriving Repr

/-- `setState(value)`: capture the old snapshot, build the merged snapshot as
a fresh object, store it, emit `statechange` with the new and old snapshots,
then run the field-diff loop over the index strings of `Object.keys(value)`. -/
def setState (ps : PrivateStates) (h : Heap) (i : Nat) (value : JSValue) :
    SetStateOutcome :=
  let oldState := psGet ps i
  let merged := mergedState ps h i value
  let h1 := (h.alloc merged).1
  let rNew := h.next
  let ps1 : PrivateStates := ⟨ps.id, (i, JSValue.ref rNew) :: ps.states⟩
  let res := diffLoop h1 i oldState rNew (indexKeys (jsKeys h value).length)
  ⟨ps1, h1, Event.statechange i (JSValue.ref rNew) oldState :: res.1, res.2⟩

/-- A snapshot value is a reference below the bound, or not a reference. -/
def refBound (v : JSValue) (n : Nat) : Bool :=
  match v with
  | .ref r => decide (r < n)
  | _ => true

/-- Store well-formedness: the heap is well-formed and every snapshot
reference in the table is allocated-or-below the heap's fresh bound. -/
def StoreWF (ps : PrivateStates) (h : Heap) : Prop :=
  h.WF ∧ ∀ p ∈ ps.states, refBound p.2 h.next = true

instance (ps : PrivateStates) (h : Heap) : Decidable (StoreWF ps h) :=
  inferInstanceAs (Decidable (h.WF ∧ ∀ p ∈ ps.states, refBound p.2 h.next = true))

/-! ### Concrete instances used by the example-driven theorems -/

/-- The example state with fields a = 1 and b = 2. -/
def demoState : Obj := [("a", JSValue.num 1), ("b", JSValue.num 2)]

/-- The example update with the single field b = 3. -/
def demoUpdate : Obj := [("b", JSValue.num 3)]

/-- A heap holding the example state at reference 0 and the example update at
reference 1. -/
def demoHeap : Heap := ⟨[(0, demoState), (1, demoUpdate)], 2⟩

/-- A table with one instance, id 1, whose snapshot is the example state. -/
def demoPS : PrivateStates := ⟨1, [(1, JSValue.ref 0)]⟩

/-- The table after constructing one instance whose `initialState` hook
yields no value, as on the base class itself. -/
def freshPS : PrivateStates := (construct ⟨0, []⟩ JSValue.undefined).1

/-- A heap holding one object with the single field a = 1 at reference 0. -/
def singleHeap : Heap := ⟨[(0, [("a", JSValue.num 1)])], 1⟩

/-- The table after constructing one instance with initial state at
reference 0. -/
def initPS : PrivateStates := (construct ⟨0, []⟩ (JSValue.ref 0)).1

/-- The table after constructing two instances: id 1 with snapshot at
reference 0, then id 2 with snapshot at reference 1. -/
def twoPS : PrivateStates :=
  (construct (construct ⟨0, []⟩ (JSValue.ref 0)).1 (JSValue.ref 1)).1

/-! ### Association-list lemmas -/

theorem getField_setField_self (o : Obj) (k : String) (v : JSValue) :
    getField (setField o k v) k = v := by
  induction o with
  | nil => simp [setField, getField]
  | cons p rest ih =>
    by_cases hp : p.1 = k
    · simp [setField, hp, getField]
    · simp [setField, hp, getField, ih]

theorem getField_setField_ne (o : Obj) (k k' : String) (v : JSValue) (hne : k' ≠ k) :
    getField (setField o k v) k' = getField o k' := by
  induction o with
  | nil =>
    simp only [setField, getField]
    rw [if_neg (fun h => hne h.symm)]
  | cons p rest ih =>
    by_cases hp : p.1 = k
    · simp only [setField, if_pos hp, getField]
      rw [if_neg (fun h => hne h.symm), if_neg (fun h : p.1 = k' => hne (hp ▸ h).symm)]
    · simp only [setField, if_neg hp, getField, ih]

theorem keys_setField (o : Obj) (k : String) (v : JSValue) :
    keys (setField o k v) = if k ∈ keys o then keys o else keys o ++ [k] := by
  induction o with
  | nil => simp [setField, keys]
  | cons p rest ih =>
    by_cases hp : p.1 = k
    · simp [setField, hp, keys]
    · have hcond : k ∈ keys (p :: rest) ↔ k ∈ keys rest := by
        simp [keys, Ne.symm hp]
      have hlhs : keys (setField (p :: rest) k v) = p.1 :: keys (setField rest k v) := by
        simp [setField, hp, keys]
      by_cases hm : k ∈ keys rest
      · rw [if_pos (hcond.mpr hm), hlhs, ih, if_pos hm]
        simp [keys]
      · rw [if_neg (fun hc => hm (hcond.mp hc)), hlhs, ih, if_neg hm]
        simp [keys]

theorem setField_not_mem (o : Obj) (k : String) (v : JSValue) (h : k ∉ keys o) :
    setField o k v = o ++ [(k, v)] := by
  induction o with
  | nil => simp [setField]
  | cons p rest ih =>
    simp only [keys, List.map_cons, List.mem_cons, not_or] at h
    have hpk : ¬ p.1 = k := fun he => h.1 he.symm
    show (if p.1 = k then (k, v) :: rest else p :: setField rest k v)
        = p :: (rest ++ [(k, v)])
    rw [if_neg hpk, ih h.2]

theorem assignFields_disjoint (src : Obj) : ∀ dst : Obj,
    (∀ a ∈ keys src, a ∉ keys dst) → (keys src).Nodup →
    assignFields dst src = dst ++ src := by
  induction src with
  | nil => intro dst _ _; simp [assignFields]
  | cons p rest ih =>
    intro dst hdisj hnd
    simp only [keys, List.map_cons, List.nodup_cons] at hnd
    rw [assignFields, setField_not_mem dst p.1 p.2 (hdisj p.1 (by simp [keys]))]
    rw [ih (dst ++ [(p.1, p.2)]) ?hd hnd.2]
    · simp
    case hd =>
      intro a ha
      have hmem : a ∈ keys (p :: rest) := by
        show a ∈ p.1 :: keys rest
        exact List.mem_cons_of_mem _ ha
      simp only [keys, List.map_append, List.mem_append, List.map_cons,
        List.map_nil, List.mem_singleton, not_or]
      exact ⟨hdisj a hmem, fun he => hnd.1 (he ▸ ha)⟩

theorem assignFields_nil (o : Obj) (hnd : (keys o).Nodup) : assignFields [] o = o := by
  simpa using assignFields_disjoint o [] (by simp [keys]) hnd

theorem nodup_keys_setField (o : Obj) (k : String) (v : JSValue)
    (h : (keys o).Nodup) : (keys (setField o k v)).Nodup := by
  rw [keys_setField]
  by_cases hm : k ∈ keys o
  · simpa [hm] using h
  · simp [hm, List.nodup_append, h]

theorem nodup_keys_assignFields (src : Obj) : ∀ dst : Obj,
    (keys dst).Nodup → (keys (assignFields dst src)).Nodup := by
  induction src with
  | nil => intro dst h; exact h
  | cons p rest ih =>
    intro dst h
    rw [assignFields]
    apply ih
    rw [keys_setField]
    by_cases hm : p.1 ∈ keys dst
    · simpa [hm] using h
    · simp [hm, List.nodup_append, h]

theorem getField_assignFields_not_mem (src : Obj) : ∀ (dst : Obj) (k : String),
    k ∉ keys src → getField (assignFields dst src) k = getField dst k := by
  induction src with
  | nil => intro dst k _; rfl
  | cons p rest ih =>
    intro dst k hk
    simp only [keys, List.map_cons, List.mem_cons, not_or] at hk
    rw [assignFields, ih _ k hk.2, getField_setField_ne _ _ _ _ hk.1]

theorem getField_assignFields_mem (src : Obj) : ∀ (dst : Obj) (k : String),
    (keys src).Nodup → k ∈ keys src →
    getField (assignFields dst src) k = getField src k := by
  induction src with
  | nil => intro dst k _ hk; simp [keys] at hk
  | cons p rest ih =>
    intro dst k hnd hk
    simp only [keys, List.map_cons, List.nodup_cons] at hnd
    rw [assignFields]
    by_cases hkr : k ∈ keys rest
    · have hkp : p.1 ≠ k := fun he => hnd.1 (he ▸ hkr)
      rw [ih _ k hnd.2 hkr, getField, if_neg hkp]
    · have hkp : k = p.1 := by
        rcases (by simpa [keys] using hk : k = p.1 ∨ k ∈ keys rest) with h | h
        · exact h
        · exact absurd h hkr
      subst hkp
      rw [getField_assignFields_not_mem rest _ p.1 hkr, getField_setField_self,
        getField, if_pos rfl]

/-! ### Heap and table lemmas -/

theorem lookupRef_mem {l : List (Nat × Obj)} {r : Nat} {o : Obj}
    (h : lookupRef l r = some o) : ∃ p ∈ l, p.1 = r ∧ p.2 = o := by
  induction l with
  | nil => simp [lookupRef] at h
  | cons q rest ih =>
    rw [lookupRef] at h
    by_cases hq : q.1 = r
    · rw [if_pos hq] at h
      exact ⟨q, by simp, hq, by injection h⟩
    · rw [if_neg hq] at h
      obtain ⟨p, hp, h1, h2⟩ := ih h
      exact ⟨p, by simp [hp], h1, h2⟩

theorem WF_get_lt {h : Heap} {r : Nat} {o : Obj} (hwf : h.WF) (hg : h.get r = some o) :
    r < h.next := by
  obtain ⟨p, hp, h1, _⟩ := lookupRef_mem hg
  exact h1 ▸ hwf p hp

theorem get_alloc_self (h : Heap) (o : Obj) : (h.alloc o).1.get h.next = some o := by
  simp [Heap.alloc, Heap.get, lookupRef]

theorem get_alloc_ne (h : Heap) (o : Obj) (r : Nat) (hne : r ≠ h.next) :
    (h.alloc o).1.get r = h.get r := by
  simp only [Heap.alloc, Heap.get, lookupRef]
  rw [if_neg (fun he => hne he.symm)]

theorem get_mutate_self (h : Heap) (r : Nat) (k : String) (v : JSValue) :
    (mutateField h r k v).get r = some (setField (h.getObj r) k v) := by
  simp [mutateField, Heap.get, lookupRef]

theorem get_mutate_ne (h : Heap) (r r' : Nat) (k : String) (v : JSValue) (hne : r' ≠ r) :
    (mutateField h r k v).get r' = h.get r' := by
  simp only [mutateField, Heap.get, lookupRef]
  rw [if_neg (fun he => hne he.symm)]

theorem statesGet_cons_self (l : List (Nat × JSValue)) (i : Nat) (v : JSValue) :
    statesGet ((i, v) :: l) i = v := by
  simp [statesGet]

theorem statesGet_cons_ne (l : List (Nat × JSValue)) (i j : Nat) (v : JSValue)
    (hne : j ≠ i) : statesGet ((i, v) :: l) j = statesGet l j := by
  simp only [statesGet]
  rw [if_neg (fun he => hne he.symm)]

theorem statesGet_refBound {l : List (Nat × JSValue)} {i r n : Nat}
    (hb : ∀ p ∈ l, refBound p.2 n = true) (hg : statesGet l i = .ref r) : r < n := by
  induction l with
  | nil => simp [statesGet] at hg
  | cons q rest ih =>
    rw [statesGet] at hg
    by_cases hq : q.1 = i
    · rw [if_pos hq] at hg
      have hb' := hb q (by simp)
      rw [hg] at hb'
      simpa [refBound] using hb'
    · rw [if_neg hq] at hg
      exact ih (fun p hp => hb p (by simp [hp])) hg

theorem StoreWF_psGet_lt {ps : PrivateStates} {h : Heap} {i r : Nat}
    (hwf : StoreWF ps h) (hg : psGet ps i = .ref r) : r < h.next :=
  statesGet_refBound hwf.2 hg

/-! ### Lemmas about `setState` components -/

theorem diffLoop_mem (h : Heap) (i : Nat) (old : JSValue) (rN : Nat) :
    ∀ (ks : List String), ∀ e ∈ (diffLoop h i old rN ks).1,
      ∃ n o, e = Event.change i n o := by
  intro ks
  induction ks with
  | nil => intro e he; simp [diffLoop] at he
  | cons k ks ih =>
    intro e he
    have hstep : diffLoop h i old rN (k :: ks) =
        match jsIndex h old k with
        | .error er => ([], some er)
        | .ok o =>
          if getField (h.getObj rN) k ≠ o then
            (Event.change i (getField (h.getObj rN) k) o :: (diffLoop h i old rN ks).1,
              (diffLoop h i old rN ks).2)
          else diffLoop h i old rN ks := rfl
    rw [hstep] at he
    cases hj : jsIndex h old k with
    | error er =>
      rw [hj] at he
      simp at he
    | ok o =>
      rw [hj] at he
      by_cases hno : getField (h.getObj rN) k = o
      · rw [show (match Except.ok o with
            | Except.error er => (([] : List Event), some er)
            | Except.ok o =>
              if getField (h.getObj rN) k ≠ o then
                (Event.change i (getField (h.getObj rN) k) o :: (diffLoop h i old rN ks).1,
                  (diffLoop h i old rN ks).2)
              else diffLoop h i old rN ks)
            = if getField (h.getObj rN) k ≠ o then
                (Event.change i (getField (h.getObj rN) k) o :: (diffLoop h i old rN ks).1,
                  (diffLoop h i old rN ks).2)
              else diffLoop h i old rN ks from rfl,
          if_neg (not_not_intro hno)] at he
        exact ih e he
      · rw [show (match Except.ok o with
            | Except.error er => (([] : List Event), some er)
            | Except.ok o =>
              if getField (h.getObj rN) k ≠ o then
                (Event.change i (getField (h.getObj rN) k) o :: (diffLoop h i old rN ks).1,
                  (diffLoop h i old rN ks).2)
              else diffLoop h i old rN ks)
            = if getField (h.getObj rN) k ≠ o then
                (Event.change i (getField (h.getObj rN) k) o :: (diffLoop h i old rN ks).1,
                  (diffLoop h i old rN ks).2)
              else diffLoop h i old rN ks from rfl,
          if_pos hno] at he
        rcases List.mem_cons.mp he with h1 | h1
        · exact ⟨_, _, h1⟩
        · exact ih e h1

theorem psGet_setState_self (ps : PrivateStates) (h : Heap) (i : Nat) (value : JSValue) :
    psGet (setState ps h i value).ps i = JSValue.ref h.next := by
  simp [setState, psGet, statesGet]

theorem psGet_setState_ne (ps : PrivateStates) (h : Heap) (i j : Nat) (value : JSValue)
    (hne : j ≠ i) : psGet (setState ps h i value).ps j = psGet ps j := by
  simp only [setState, psGet]
  exact statesGet_cons_ne _ _ _ _ hne

theorem setState_heap (ps : PrivateStates) (h : Heap) (i : Nat) (value : JSValue) :
    (setState ps h i value).heap = (h.alloc (mergedState ps h i value)).1 := rfl

theorem setState_events (ps : PrivateStates) (h : Heap) (i : Nat) (value : JSValue) :
    (setState ps h i value).events =
      Event.statechange i (JSValue.ref h.next) (psGet ps i) ::
        (diffLoop (h.alloc (mergedState ps h i value)).1 i (psGet ps i) h.next
          (indexKeys (jsKeys h value).length)).1 := rfl

theorem mergedState_nodup (ps : PrivateStates) (h : Heap) (i : Nat) (value : JSValue) :
    (keys (mergedState ps h i value)).Nodup := by
  unfold mergedState
  exact nodup_keys_assignFields _ _ (nodup_keys_assignFields _ [] (by simp [keys]))

theorem readObj_ref (ps : PrivateStates) (h : Heap) (i : Nat) (r : Nat)
    (hg : psGet ps i = JSValue.ref r) :
    readObj ps h i = some (assignFields [] (h.getObj r)) := by
  simp [readObj, stateRead, hg, truthy, ownProps, get_alloc_self]

theorem mergedState_of_ref (ps : PrivateStates) (h : Heap) (i rS rV : Nat)
    (oS oV : Obj) (hS : psGet ps i = JSValue.ref rS) (hgS : h.get rS = some oS)
    (hgV : h.get rV = some oV) (hndS : (keys oS).Nodup) :
    mergedState ps h i (JSValue.ref rV) = assignFields oS oV := by
  unfold mergedState
  rw [hS]
  simp only [truthy, if_true, ownProps, Heap.getObj, hgS, hgV, Option.getD_some]
  rw [assignFields_nil oS hndS]

theorem readObj_psGet (ps ps' : PrivateStates) (h h' : Heap) (i i' : Nat)
    (hv : psGet ps i = psGet ps' i')
    (hcontents : ∀ r, psGet ps i = JSValue.ref r → h.getObj r = h'.getObj r) :
    readObj ps h i = readObj ps' h' i' := by
  unfold readObj stateRead
  rw [← hv]
  cases hval : psGet ps i with
  | ref r => simp [truthy, ownProps, hcontents r hval, get_alloc_self]
  | undefined => simp [truthy]
  | null => simp [truthy]
  | boolV b => cases b <;> simp [truthy, ownProps, get_alloc_self]
  | num n => by_cases hn : n = 0 <;> simp [truthy, hn, ownProps, get_alloc_self]
  | str s => by_cases hs : s = "" <;> simp [truthy, hs, ownProps, get_alloc_self]

/-! ### Claim theorems -/

/-- Claim C1: the specification requires a `change` notification for every
field of the update whose new value differs from the old one under strict
inequality — from state with a = 1, b = 2, updating b to 3 should emit
exactly one `change` event with payload (3, 2).  The code's diff loop
instead walks `for (const key in Object.keys(value))`, the enumerable keys
of the *array* of key names, so it compares field "0" of the old and new
snapshots and emits no `change` event at all: the complete event list of
the call is the single `statechange` event. -/
theorem setState_diff_loop_misses_changed_field :
    (setState demoPS demoHeap 1 (JSValue.ref 1)).events
        = [Event.statechange 1 (JSValue.ref 2) (JSValue.ref 0)] ∧
    (setState demoPS demoHeap 1 (JSValue.ref 1)).events.countP isChange = 0 := by
  constructor
  · rfl
  · rfl

/-- Claim C2: updating merges shallowly at the top level: after
`setState(value)` on a stored snapshot `oS`, a state read returns the
merge `assignFields oS oV`, in which every field of the update carries its
updated value and every field absent from the update keeps its value from
the old snapshot. -/
theorem setState_merges_shallowly (ps : PrivateStates) (h : Heap) (i rS rV : Nat)
    (oS oV : Obj) (hS : psGet ps i = JSValue.ref rS) (hgS : h.get rS = some oS)
    (hgV : h.get rV = some oV) (hndS : (keys oS).Nodup) (hndV : (keys oV).Nodup) :
    readObj (setState ps h i (JSValue.ref rV)).ps
        (setState ps h i (JSValue.ref rV)).heap i = some (assignFields oS oV) ∧
    (∀ k, k ∈ keys oV → getField (assignFields oS oV) k = getField oV k) ∧
    (∀ k, k ∉ keys oV → getField (assignFields oS oV) k = getField oS k) := by
  have hmerge : mergedState ps h i (JSValue.ref rV) = assignFields oS oV :=
    mergedState_of_ref ps h i rS rV oS oV hS hgS hgV hndS
  refine ⟨?_, ?_, ?_⟩
  · rw [readObj_ref _ _ i h.next (psGet_setState_self ps h i (JSValue.ref rV))]
    rw [setState_heap]
    show some (assignFields [] (((h.alloc (mergedState ps h i (JSValue.ref rV))).1.get
      h.next).getD [])) = _
    rw [get_alloc_self, Option.getD_some, hmerge,
      assignFields_nil _ (nodup_keys_assignFields oV oS hndS)]
  · intro k hk
    exact getField_assignFields_mem oV oS k hndV hk
  · intro k hk
    exact getField_assignFields_not_mem oV oS k hk

/-- Witness for C2 at the specification's example: state a = 1, b = 2 and
update b = 3 give subsequent read a = 1, b = 3. -/
theorem setState_merges_shallowly_witness :
    psGet demoPS 1 = JSValue.ref 0 ∧ demoHeap.get 0 = some demoState ∧
    demoHeap.get 1 = some demoUpdate ∧ (keys demoState).Nodup ∧
    (keys demoUpdate).Nodup ∧
    assignFields demoState demoUpdate = [("a", JSValue.num 1), ("b", JSValue.num 3)] ∧
    (readObj (setState demoPS demoHeap 1 (JSValue.ref 1)).ps
        (setState demoPS demoHeap 1 (JSValue.ref 1)).heap 1
      = some (assignFields demoState demoUpdate) ∧
    (∀ k, k ∈ keys demoUpdate →
      getField (assignFields demoState demoUpdate) k = getField demoUpdate k) ∧
    (∀ k, k ∉ keys demoUpdate →
      getField (assignFields demoState demoUpdate) k = getField demoState k)) :=
  ⟨rfl, rfl, rfl, by decide, by decide, by decide,
    setState_merges_shallowly demoPS demoHeap 1 0 1 demoState demoUpdate rfl rfl rfl
      (by decide) (by decide)⟩

/-- Claim C5: the specification says an update on an instance with no stored
snapshot treats the old snapshot as an empty mapping and completes without
an error.  The merge step indeed falls back to an empty object
(`oldState || \x7b\x7d`) and the merged snapshot is stored, but the diff loop then
evaluates `oldState[key]` on the raw `undefined` old snapshot and throws a
`TypeError` for any update with at least one key: here, updating a fresh
instance (no initial state) with the single-field object a = 1 stores the
merged snapshot, emits `statechange`, and then throws. -/
theorem setState_throws_without_initial_state :
    (setState freshPS singleHeap 1 (JSValue.ref 0)).error = some JSError.typeError ∧
    psGet (setState freshPS singleHeap 1 (JSValue.ref 0)).ps 1 = JSValue.ref 1 ∧
    readObj (setState freshPS singleHeap 1 (JSValue.ref 0)).ps
        (setState freshPS singleHeap 1 (JSValue.ref 0)).heap 1
      = some [("a", JSValue.num 1)] := by
  refine ⟨rfl, rfl, rfl⟩

/-- Claim C3: a state read hands back a freshly allocated shallow copy of the
stored snapshot: structurally equal to it, at a reference distinct from the
stored one; mutating the returned copy changes neither the stored snapshot
nor what a subsequent read returns, and a second read yields yet another
distinct reference. -/
theorem stateRead_returns_fresh_copy (ps : PrivateStates) (h : Heap) (i rS : Nat)
    (oS : Obj) (hWF : h.WF) (hS : psGet ps i = JSValue.ref rS)
    (hgS : h.get rS = some oS) (hnd : (keys oS).Nodup) :
    (stateRead ps h i).2 = JSValue.ref h.next ∧
    h.next ≠ rS ∧
    (stateRead ps h i).1.get h.next = some oS ∧
    (∀ k v, (mutateField (stateRead ps h i).1 h.next k v).get rS = some oS ∧
      readObj ps (mutateField (stateRead ps h i).1 h.next k v) i = some oS) ∧
    (stateRead ps (stateRead ps h i).1 i).2 = JSValue.ref (h.next + 1) ∧
    JSValue.ref (h.next + 1) ≠ JSValue.ref h.next := by
  have hlt : rS < h.next := WF_get_lt hWF hgS
  have hread : stateRead ps h i = ((h.alloc oS).1, JSValue.ref h.next) := by
    unfold stateRead
    rw [hS]
    simp only [truthy, if_true, ownProps, Heap.getObj, hgS, Option.getD_some]
    rw [assignFields_nil oS hnd]
  have hgetS : ∀ k v, (mutateField (stateRead ps h i).1 h.next k v).get rS = some oS := by
    intro k v
    rw [hread, get_mutate_ne _ _ _ _ _ (ne_of_lt hlt),
      get_alloc_ne _ _ _ (ne_of_lt hlt), hgS]
  refine ⟨by rw [hread], ne_of_gt hlt, ?_, fun k v => ⟨hgetS k v, ?_⟩, ?_, ?_⟩
  · rw [hread, get_alloc_self]
  · rw [readObj_ref ps _ i rS hS, Heap.getObj, hgetS k v, Option.getD_some,
      assignFields_nil oS hnd]
  · rw [hread]
    unfold stateRead
    rw [hS]
    rfl
  · intro he
    injection he with he
    exact Nat.succ_ne_self h.next he

/-- Witness for C3: a newly constructed instance with initial state a = 1
reads back a = 1 as a fresh copy at reference 1, mutating that copy (field b
set to 9) leaves the stored snapshot and subsequent reads unchanged, and a
second read uses reference 2. -/
theorem stateRead_returns_fresh_copy_witness :
    singleHeap.WF ∧ psGet initPS 1 = JSValue.ref 0 ∧
    singleHeap.get 0 = some [("a", JSValue.num 1)] ∧
    (keys [("a", JSValue.num 1)]).Nodup ∧
    ((stateRead initPS singleHeap 1).2 = JSValue.ref singleHeap.next ∧
    singleHeap.next ≠ 0 ∧
    (stateRead initPS singleHeap 1).1.get singleHeap.next = some [("a", JSValue.num 1)] ∧
    (∀ k v,
      (mutateField (stateRead initPS singleHeap 1).1 singleHeap.next k v).get 0
          = some [("a", JSValue.num 1)] ∧
      readObj initPS (mutateField (stateRead initPS singleHeap 1).1 singleHeap.next k v) 1
          = some [("a", JSValue.num 1)]) ∧
    (stateRead initPS (stateRead initPS singleHeap 1).1 1).2
        = JSValue.ref (singleHeap.next + 1) ∧
    JSValue.ref (singleHeap.next + 1) ≠ JSValue.ref singleHeap.next) :=
  ⟨by decide, rfl, rfl, by decide,
    stateRead_returns_fresh_copy initPS singleHeap 1 0 [("a", JSValue.num 1)]
      (by decide) rfl rfl (by decide)⟩

/-- Claim C4: every `setState` call emits exactly one `statechange` event; it
is the first thing emitted, before the call returns, its payload is the
stored new snapshot together with the old snapshot, and it happens whether
or not any field value changed; delivery hands it to every subscriber of the
channel once, in subscription order. -/
theorem setState_emits_single_statechange (ps : PrivateStates) (h : Heap) (i : Nat)
    (value : JSValue) {L : Type} (listeners : List L) :
    (setState ps h i value).events.countP isStatechange = 1 ∧
    (setState ps h i value).events.head? =
      some (Event.statechange i (psGet (setState ps h i value).ps i) (psGet ps i)) ∧
    (deliver listeners (Event.statechange i (psGet (setState ps h i value).ps i)
        (psGet ps i))).map Prod.fst = listeners := by
  refine ⟨?_, ?_, ?_⟩
  · rw [setState_events, List.countP_cons]
    have hz : (diffLoop (h.alloc (mergedState ps h i value)).1 i (psGet ps i) h.next
        (indexKeys (jsKeys h value).length)).1.countP isStatechange = 0 := by
      rw [List.countP_eq_zero]
      intro e he
      obtain ⟨n, o, rfl⟩ := diffLoop_mem _ _ _ _ _ e he
      simp [isStatechange]
    rw [hz]
    simp [isStatechange]
  · rw [setState_events, psGet_setState_self]
    rfl
  · show (List.map _ listeners).map Prod.fst = listeners
    rw [List.map_map]
    exact List.map_id listeners

/-- Claim C6: updating instance A neither changes instance B's stored
snapshot nor what B's readers see, and every event of the call is emitted on
A, so subscribers registered on B receive nothing. -/
theorem setState_leaves_other_instances_unchanged (ps : PrivateStates) (h : Heap)
    (iA iB : Nat) (value : JSValue) (hwf : StoreWF ps h) (hne : iB ≠ iA) :
    psGet (setState ps h iA value).ps iB = psGet ps iB ∧
    (∀ e ∈ (setState ps h iA value).events, e.inst = iA) ∧
    (setState ps h iA value).events.filter (fun e => e.inst == iB) = [] ∧
    readObj (setState ps h iA value).ps (setState ps h iA value).heap iB
      = readObj ps h iB := by
  have hpsB : psGet (setState ps h iA value).ps iB = psGet ps iB :=
    psGet_setState_ne ps h iA iB value hne
  have hinst : ∀ e ∈ (setState ps h iA value).events, e.inst = iA := by
    intro e he
    rw [setState_events] at he
    rcases List.mem_cons.mp he with h1 | h1
    · rw [h1]; rfl
    · obtain ⟨n, o, rfl⟩ := diffLoop_mem _ _ _ _ _ e h1
      rfl
  refine ⟨hpsB, hinst, ?_, ?_⟩
  · rw [List.filter_eq_nil_iff]
    intro e he
    rw [hinst e he]
    simpa using Ne.symm hne
  · apply readObj_psGet
    · exact hpsB
    · intro r hr
      rw [hpsB] at hr
      have hlt : r < h.next := StoreWF_psGet_lt hwf hr
      rw [setState_heap, Heap.getObj, Heap.getObj,
        get_alloc_ne _ _ _ (ne_of_lt hlt)]

/-- Witness for C6: with two constructed instances (id 1 and id 2 with
distinct initial states), updating instance 2 leaves instance 1's snapshot
and reads unchanged and delivers it no event. -/
theorem setState_leaves_other_instances_unchanged_witness :
    StoreWF twoPS demoHeap ∧ (1 : Nat) ≠ 2 ∧
    (psGet (setState twoPS demoHeap 2 (JSValue.ref 1)).ps 1 = psGet twoPS 1 ∧
    (∀ e ∈ (setState twoPS demoHeap 2 (JSValue.ref 1)).events, e.inst = 2) ∧
    (setState twoPS demoHeap 2 (JSValue.ref 1)).events.filter
        (fun e => e.inst == 1) = [] ∧
    readObj (setState twoPS demoHeap 2 (JSValue.ref 1)).ps
        (setState twoPS demoHeap 2 (JSValue.ref 1)).heap 1
      = readObj twoPS demoHeap 1) :=
  ⟨by decide, by decide,
    setState_leaves_other_instances_unchanged twoPS demoHeap 2 1 (JSValue.ref 1)
      (by decide) (by decide)⟩

/-- Claim C7: the update object handed to `setState` is never stored as-is:
the stored snapshot is a distinct, freshly allocated object, and mutating
the update object afterwards leaves every subsequent state read unchanged. -/
theorem setState_never_stores_update_object (ps : PrivateStates) (h : Heap)
    (i rV : Nat) (oV : Obj) (hWF : h.WF) (hgV : h.get rV = some oV) :
    psGet (setState ps h i (JSValue.ref rV)).ps i ≠ JSValue.ref rV ∧
    ∀ k v,
      readObj (setState ps h i (JSValue.ref rV)).ps
          (mutateField (setState ps h i (JSValue.ref rV)).heap rV k v) i
        = readObj (setState ps h i (JSValue.ref rV)).ps
            (setState ps h i (JSValue.ref rV)).heap i := by
  have hlt : rV < h.next := WF_get_lt hWF hgV
  constructor
  · rw [psGet_setState_self]
    intro he
    injection he with he
    exact ne_of_gt hlt he
  · intro k v
    apply readObj_psGet
    · rfl
    · intro r hr
      rw [psGet_setState_self] at hr
      injection hr with hr
      subst hr
      rw [Heap.getObj, Heap.getObj, get_mutate_ne _ _ _ _ _ (ne_of_gt hlt)]

/-- Witness for C7: on the example instance, updating with the object at
reference 1 stores a different reference, and mutating that update object
(field b set to 7) afterwards does not change what a read returns. -/
theorem setState_never_stores_update_object_witness :
    demoHeap.WF ∧ demoHeap.get 1 = some demoUpdate ∧
    psGet (setState demoPS demoHeap 1 (JSValue.ref 1)).ps 1 ≠ JSValue.ref 1 ∧
    readObj (setState demoPS demoHeap 1 (JSValue.ref 1)).ps
        (mutateField (setState demoPS demoHeap 1 (JSValue.ref 1)).heap 1 "b"
          (JSValue.num 7)) 1
      = readObj (setState demoPS demoHeap 1 (JSValue.ref 1)).ps
          (setState demoPS demoHeap 1 (JSValue.ref 1)).heap 1 :=
  ⟨by decide, rfl,
    (setState_never_stores_update_object demoPS demoHeap 1 1 demoUpdate
      (by decide) rfl).1,
    (setState_never_stores_update_object demoPS demoHeap 1 1 demoUpdate
      (by decide) rfl).2 "b" (JSValue.num 7)⟩

/-- Claim C8: construction assigns the instance the incremented counter as
its id: strictly greater than every id assigned before (hence process-unique
and monotonically increasing), recorded as the new counter value, keeping
the invariant that all assigned ids are bounded by the counter; a subsequent
`setState` on the instance leaves the counter untouched. -/
theorem construct_assigns_fresh_monotonic_id (ps : PrivateStates) (init : JSValue)
    (hbound : ∀ p ∈ ps.states, p.1 ≤ ps.id) :
    (construct ps init).2 = ps.id + 1 ∧
    (∀ p ∈ ps.states, p.1 < (construct ps init).2) ∧
    (construct ps init).2 = (construct ps init).1.id ∧
    (∀ p ∈ (construct ps init).1.states, p.1 ≤ (construct ps init).1.id) ∧
    (∀ (h : Heap) (value : JSValue),
      (setState (construct ps init).1 h (construct ps init).2 value).ps.id
        = (construct ps init).1.id) := by
  refine ⟨rfl, ?_, rfl, ?_, fun h value => rfl⟩
  · intro p hp
    exact Nat.lt_succ_of_le (hbound p hp)
  · intro p hp
    rcases List.mem_cons.mp hp with h1 | h1
    · rw [h1]
      exact Nat.le_refl _
    · exact Nat.le_succ_of_le (hbound p h1)

/-- Witness for C8 on a table holding two constructed instances (counter 2,
ids 1 and 2): the next construction takes id 3. -/
theorem construct_assigns_fresh_monotonic_id_witness :
    (∀ p ∈ twoPS.states, p.1 ≤ twoPS.id) ∧
    (construct twoPS JSValue.null).2 = twoPS.id + 1 ∧
    (∀ p ∈ twoPS.states, p.1 < (construct twoPS JSValue.null).2) ∧
    (construct twoPS JSValue.null).2 = (construct twoPS JSValue.null).1.id ∧
    (∀ p ∈ (construct twoPS JSValue.null).1.states,
      p.1 ≤ (construct twoPS JSValue.null).1.id) ∧
    (setState (construct twoPS JSValue.null).1 demoHeap
        (construct twoPS JSValue.null).2 JSValue.undefined).ps.id
      = (construct twoPS JSValue.null).1.id :=
  ⟨by decide,
    (construct_assigns_fresh_monotonic_id twoPS JSValue.null (by decide)).1,
    (construct_assigns_fresh_monotonic_id twoPS JSValue.null (by decide)).2.1,
    (construct_assigns_fresh_monotonic_id twoPS JSValue.null (by decide)).2.2.1,
    (construct_assigns_fresh_monotonic_id twoPS JSValue.null (by decide)).2.2.2.1,
    (construct_assigns_fresh_monotonic_id twoPS JSValue.null
      (by decide)).2.2.2.2 demoHeap JSValue.undefined⟩

/-- Claim C9: the new-snapshot payload of the `statechange` event is the very
reference the container stores (no defensive copy): the event carries the
stored reference `h.next`, and a subscriber mutating a field through that
reference makes every subsequent state read return the mutated value. -/
theorem statechange_payload_aliases_stored_snapshot (ps : PrivateStates) (h : Heap)
    (i : Nat) (value : JSValue) :
    (setState ps h i value).events.head? =
      some (Event.statechange i (psGet (setState ps h i value).ps i) (psGet ps i)) ∧
    psGet (setState ps h i value).ps i = JSValue.ref h.next ∧
    ∀ k v, ∃ m,
      readObj (setState ps h i value).ps
          (mutateField (setState ps h i value).heap h.next k v) i = some m ∧
      getField m k = v := by
  refine ⟨?_, psGet_setState_self ps h i value, ?_⟩
  · rw [setState_events, psGet_setState_self]
    rfl
  · intro k v
    refine ⟨setField (mergedState ps h i value) k v, ?_, getField_setField_self _ _ _⟩
    rw [readObj_ref _ _ i h.next (psGet_setState_self ps h i value),
      Heap.getObj, get_mutate_self, Option.getD_some]
    have hobj : (setState ps h i value).heap.getObj h.next = mergedState ps h i value := by
      rw [setState_heap, Heap.getObj, get_alloc_self, Option.getD_some]
    rw [hobj, assignFields_nil _
      (nodup_keys_setField _ _ _ (mergedState_nodup ps h i value))]

/-- Claim C10: `setState` is not atomic on error: whatever the update value,
the merged snapshot is stored under the instance's id and the `statechange`
event is emitted first, so when the diff loop throws, a subsequent state
read still returns the merged snapshot. -/
theorem setState_stores_and_notifies_before_throw (ps : PrivateStates) (h : Heap)
    (i : Nat) (value : JSValue)
    (_herr : (setState ps h i value).error.isSome = true) :
    psGet (setState ps h i value).ps i = JSValue.ref h.next ∧
    (setState ps h i value).heap.get h.next = some (mergedState ps h i value) ∧
    (setState ps h i value).events.head? =
      some (Event.statechange i (JSValue.ref h.next) (psGet ps i)) ∧
    readObj (setState ps h i value).ps (setState ps h i value).heap i
      = some (mergedState ps h i value) := by
  refine ⟨psGet_setState_self ps h i value, ?_, ?_, ?_⟩
  · rw [setState_heap, get_alloc_self]
  · rw [setState_events]
    rfl
  · rw [readObj_ref _ _ i h.next (psGet_setState_self ps h i value),
      setState_heap, Heap.getObj, get_alloc_self, Option.getD_some,
      assignFields_nil _ (mergedState_nodup ps h i value)]

/-- Witness for C10: updating a fresh instance (no stored snapshot) with the
single-field object a = 1 throws, yet the merged snapshot is stored, the
`statechange` event was emitted, and a read returns the merged snapshot. -/
theorem setState_stores_and_notifies_before_throw_witness :
    (setState freshPS singleHeap 1 (JSValue.ref 0)).error.isSome = true ∧
    (psGet (setState freshPS singleHeap 1 (JSValue.ref 0)).ps 1
        = JSValue.ref singleHeap.next ∧
    (setState freshPS singleHeap 1 (JSValue.ref 0)).heap.get singleHeap.next
        = some (mergedState freshPS singleHeap 1 (JSValue.ref 0)) ∧
    (setState freshPS singleHeap 1 (JSValue.ref 0)).events.head? =
      some (Event.statechange 1 (JSValue.ref singleHeap.next) (psGet freshPS 1)) ∧
    readObj (setState freshPS singleHeap 1 (JSValue.ref 0)).ps
        (setState freshPS singleHeap 1 (JSValue.ref 0)).heap 1
      = some (mergedState freshPS singleHeap 1 (JSValue.ref 0))) :=
  ⟨by decide,
    setState_stores_and_notifies_before_throw freshPS singleHeap 1 (JSValue.ref 0)
      (by decide)⟩

end StatefulEmitterModel
